import Mathlib

/-!
Verification of the markdown-to-HTML core of the static-site-generator
repository.  Strings are modelled as `List Char`; Python's fallible
functions (`raise`) are modelled with `Except PyErr`.  Each definition is a
direct translation of the corresponding Python function.
-/

/-- Convert a Lean string literal to the `List Char` representation used
throughout this development. -/
abbrev chars (s : String) : List Char := s.data

/-- The backquote character, written via its code point. -/
def bquote : Char := Char.ofNat 96

/-- Errors raised by the Python code.  Every `raise` in the modelled
sources constructs either a `ValueError` or (for an out-of-range list
index) an `IndexError`. -/
inductive PyErr where
  | valueError (msg : List Char) : PyErr
  | indexError (msg : List Char) : PyErr
deriving DecidableEq, Repr

deriving instance DecidableEq for Except

/-- Fuelled core of Python `str.count(sub)` for a non-empty `sub`
(`sub = subHead :: subTail`): counts non-overlapping occurrences scanning
left to right.  The fuel is always instantiated with the length of the
scanned string, which suffices because every step consumes at least one
character. -/
def countSubstrFuel (subHead : Char) (subTail : List Char) : Nat → List Char → Nat
  | _, [] => 0
  | 0, _ => 0
  | fuel + 1, c :: rest =>
    if (subHead :: subTail).isPrefixOf (c :: rest) then
      countSubstrFuel subHead subTail fuel (rest.drop subTail.length) + 1
    else
      countSubstrFuel subHead subTail fuel rest

/-- Python `s.count(sub)`.  (Python's `count` with an empty `sub` returns
`len(s) + 1`; the modelled code never calls it that way.) -/
def countSubstr (sub s : List Char) : Nat :=
  match sub with
  | [] => s.length + 1
  | h :: t => countSubstrFuel h t s.length s

/-- Fuelled core of Python `s.split(sep)` for a non-empty `sep`:
splits on non-overlapping occurrences scanning left to right, keeping
empty fragments.  `acc` holds the current fragment reversed. -/
def splitOnFuel (sepHead : Char) (sepTail : List Char) : Nat → List Char → List Char → List (List Char)
  | _, [], acc => [acc.reverse]
  | 0, s, acc => [acc.reverse ++ s]
  | fuel + 1, c :: rest, acc =>
    if (sepHead :: sepTail).isPrefixOf (c :: rest) then
      acc.reverse :: splitOnFuel sepHead sepTail fuel (rest.drop sepTail.length) []
    else
      splitOnFuel sepHead sepTail fuel rest (c :: acc)

/-- Python `s.split(sep)` with a non-empty separator.  (Python raises on an
empty separator; the modelled code never passes one.) -/
def splitOnSub (sep s : List Char) : List (List Char) :=
  match sep with
  | [] => [s]
  | h :: t => splitOnFuel h t s.length s []

/-- Python `s.split(sep, 1)`: split at the first occurrence of `sep` only. -/
def splitOnceAux (sepHead : Char) (sepTail : List Char) : List Char → List Char → List (List Char)
  | [], acc => [acc.reverse]
  | c :: rest, acc =>
    if (sepHead :: sepTail).isPrefixOf (c :: rest) then
      [acc.reverse, rest.drop sepTail.length]
    else
      splitOnceAux sepHead sepTail rest (c :: acc)

/-- Python `s.split(sep, 1)` with a non-empty separator. -/
def pySplitOnce (sep s : List Char) : List (List Char) :=
  match sep with
  | [] => [s]
  | h :: t => splitOnceAux h t s []

/-- The whitespace characters stripped by Python's `str.strip()`. -/
def isPySpace (c : Char) : Bool :=
  c == ' ' || c == '\t' || c == '\n' || c == '\r' || c == Char.ofNat 11 || c == Char.ofNat 12

/-- Python `s.strip()`: remove leading and trailing whitespace. -/
def pyStrip (s : List Char) : List Char :=
  ((s.dropWhile isPySpace).reverse.dropWhile isPySpace).reverse

/-- Python `f"{n}"` / `str(n)`: decimal digits of a natural number. -/
def natToChars (n : Nat) : List Char := Nat.toDigits 10 n

/-- Index of the first occurrence of `pattern` in `s` (Python `s.find(pattern)`
restricted to the searched suffix), `none` when absent. -/
def findSubIdx (pattern : List Char) : List Char → Option Nat
  | [] => if pattern.isEmpty then some 0 else none
  | c :: rest =>
    if pattern.isPrefixOf (c :: rest) then some 0
    else (findSubIdx pattern rest).map (· + 1)

/-- The `TextType` enum of `textnode.py`. -/
inductive TextType where
  | TEXT
  | BOLD
  | ITALIC
  | CODE
  | LINK
  | IMAGE
deriving DecidableEq, Repr

/-- The `TextNode` class of `textnode.py`: a text, its type, and an
optional url (Python default `None`). -/
structure TextNode where
  text : List Char
  textType : TextType
  url : Option (List Char)
deriving DecidableEq, Repr

/-- The inner loop of `split_nodes_delimiter` over the fragments of a
split: fragments at even positions become plain text, fragments at odd
positions get the styled type; empty fragments are skipped (the position
index still advances, mirroring Python's `enumerate`). -/
def fragmentsToNodes (textType : TextType) : Nat → List (List Char) → List TextNode
  | _, [] => []
  | i, t :: rest =>
    if t = [] then fragmentsToNodes textType (i + 1) rest
    else
      ⟨t, if i % 2 = 0 then TextType.TEXT else textType, none⟩ ::
        fragmentsToNodes textType (i + 1) rest

/-- `split_nodes_delimiter` from `inline_markdown_to_html.py`.  For each
node in order: raise `ValueError` when the delimiter count in its text is
odd; pass the node through unchanged when it is not plain text or contains
no delimiter; otherwise split its text at the delimiter. -/
def splitNodesDelimiter : List TextNode → List Char → TextType → Except PyErr (List TextNode)
  | [], _, _ => .ok []
  | node :: rest, delimiter, textType =>
    let count := countSubstr delimiter node.text
    if count % 2 ≠ 0 then
      .error (.valueError (chars "invalid Markdown syntax."))
    else if node.textType ≠ TextType.TEXT ∨ count = 0 then
      match splitNodesDelimiter rest delimiter textType with
      | .error e => .error e
      | .ok tail => .ok (node :: tail)
    else
      match splitNodesDelimiter rest delimiter textType with
      | .error e => .error e
      | .ok tail => .ok (fragmentsToNodes textType 0 (splitOnSub delimiter node.text) ++ tail)

/-- Scan the body of a bracketed group: the regex fragment `[^xy]*` followed
by the literal closing character `closeC`.  Returns the body and the
remainder after the closing character, or `none` when the first bracket
character reached is not `closeC` (or the string ends first). -/
def scanBody (openC closeC : Char) (s : List Char) : Option (List Char × List Char) :=
  match s.dropWhile (fun c => !(c == openC || c == closeC)) with
  | r :: rest1 =>
    if r = closeC then some (s.takeWhile (fun c => !(c == openC || c == closeC)), rest1)
    else none
  | [] => none

/-- Try to match the image regex `!\[([^\[\]]*)\]\(([^\(\)]*)\)` at the head
of the string; on success return alt text, url, and the remainder after
the match. -/
def matchImageAt : List Char → Option (List Char × List Char × List Char)
  | '!' :: '[' :: rest =>
    match scanBody '[' ']' rest with
    | none => none
    | some (alt, rest1) =>
      match rest1 with
      | '(' :: rest2 =>
        match scanBody '(' ')' rest2 with
        | none => none
        | some (url, rest3) => some (alt, url, rest3)
      | _ => none
  | _ => none

/-- Try to match the link regex `\[([^\[\]]*)\]\(([^\(\)]*)\)` at the head of
the string (the lookbehind is handled by the caller). -/
def matchLinkAt : List Char → Option (List Char × List Char × List Char)
  | '[' :: rest =>
    match scanBody '[' ']' rest with
    | none => none
    | some (txt, rest1) =>
      match rest1 with
      | '(' :: rest2 =>
        match scanBody '(' ')' rest2 with
        | none => none
        | some (url, rest3) => some (txt, url, rest3)
      | _ => none
  | _ => none

/-- Fuelled scan of `re.findall` for the image pattern: try to match at each
position, emitting matches left to right and resuming after each match.
The fuel is always the length of the scanned text, which suffices because
every step consumes at least one character. -/
def findallImagesAux : Nat → List Char → List (List Char × List Char)
  | 0, _ => []
  | _ + 1, [] => []
  | fuel + 1, c :: rest =>
    match matchImageAt (c :: rest) with
    | some (alt, url, remaining) => (alt, url) :: findallImagesAux fuel remaining
    | none => findallImagesAux fuel rest

/-- `extract_markdown_images` from `inline_markdown_to_html.py`. -/
def extractMarkdownImages (text : List Char) : List (List Char × List Char) :=
  findallImagesAux text.length text

/-- Fuelled scan of `re.findall` for the link pattern, threading the
previous character so that the negative lookbehind `(?<!!)` can reject
matches directly preceded by `!`. -/
def findallLinksAux : Nat → Option Char → List Char → List (List Char × List Char)
  | 0, _, _ => []
  | _ + 1, _, [] => []
  | fuel + 1, prev, c :: rest =>
    if prev = some '!' then
      findallLinksAux fuel (some c) rest
    else
      match matchLinkAt (c :: rest) with
      | some (txt, url, remaining) => (txt, url) :: findallLinksAux fuel (some ')') remaining
      | none => findallLinksAux fuel (some c) rest

/-- `extract_markdown_links` from `inline_markdown_to_html.py`. -/
def extractMarkdownLinks (text : List Char) : List (List Char × List Char) :=
  findallLinksAux text.length none text

/-- The Python format string `"![{}]({})"` applied to alt text and url. -/
def imagePattern (alt url : List Char) : List Char :=
  chars "![" ++ alt ++ chars "](" ++ url ++ chars ")"

/-- The Python format string `"[{}]({})"` applied to anchor text and url. -/
def linkPattern (txt url : List Char) : List Char :=
  chars "[" ++ txt ++ chars "](" ++ url ++ chars ")"

/-- The match loop of `split_nodes_by_markdown`: walk the extracted matches
with a cursor into the node's text, emitting the plain text before each
match (when non-empty) and a styled node per match, then the trailing
remainder.  When Python's `find` returns `-1` (never reached on real
extractor output) the original code compares `-1 > cursor` (false) and sets
the cursor to `-1 + len(pattern)`, which the `none` branch mirrors. -/
def splitMatchesLoop (mkPattern : List Char → List Char → List Char) (textType : TextType)
    (remainingText : List Char) : Nat → List (List Char × List Char) → List TextNode
  | cursor, [] =>
    if cursor < remainingText.length then
      if remainingText.drop cursor = [] then []
      else [⟨remainingText.drop cursor, TextType.TEXT, none⟩]
    else []
  | cursor, (propText, url) :: rem =>
    let pattern := mkPattern propText url
    match findSubIdx pattern (remainingText.drop cursor) with
    | none =>
      ⟨propText, textType, some url⟩ ::
        splitMatchesLoop mkPattern textType remainingText (pattern.length - 1) rem
    | some idx =>
      let startIndex := idx + cursor
      (if startIndex > cursor then
        (if (remainingText.take startIndex).drop cursor = [] then []
         else [(⟨(remainingText.take startIndex).drop cursor, TextType.TEXT, none⟩ : TextNode)])
       else []) ++
      ⟨propText, textType, some url⟩ ::
        splitMatchesLoop mkPattern textType remainingText (startIndex + pattern.length) rem

/-- `split_nodes_by_markdown` from `inline_markdown_to_html.py`: non-plain
nodes and plain nodes without matches pass through unchanged; plain nodes
with matches are split by the match loop. -/
def splitNodesByMarkdown (extractFunction : List Char → List (List Char × List Char))
    (textType : TextType) (mkPattern : List Char → List Char → List Char) :
    List TextNode → List TextNode
  | [] => []
  | node :: rest =>
    if node.textType ≠ TextType.TEXT then
      node :: splitNodesByMarkdown extractFunction textType mkPattern rest
    else
      match extractFunction node.text with
      | [] => node :: splitNodesByMarkdown extractFunction textType mkPattern rest
      | m :: ms =>
        splitMatchesLoop mkPattern textType node.text 0 (m :: ms) ++
          splitNodesByMarkdown extractFunction textType mkPattern rest

/-- `split_nodes_image` from `inline_markdown_to_html.py`. -/
def splitNodesImage (oldNodes : List TextNode) : List TextNode :=
  splitNodesByMarkdown extractMarkdownImages TextType.IMAGE imagePattern oldNodes

/-- `split_nodes_link` from `inline_markdown_to_html.py`. -/
def splitNodesLink (oldNodes : List TextNode) : List TextNode :=
  splitNodesByMarkdown extractMarkdownLinks TextType.LINK linkPattern oldNodes

/-- `text_to_textnodes` from `inline_markdown_to_html.py`: the bold, italic
and code delimiter passes (each of which can raise) followed by the image
and link passes. -/
def textToTextnodes (text : List Char) : Except PyErr (List TextNode) :=
  match splitNodesDelimiter [⟨text, TextType.TEXT, none⟩] (chars "**") TextType.BOLD with
  | .error e => .error e
  | .ok boldNodes =>
    match splitNodesDelimiter boldNodes (chars "_") TextType.ITALIC with
    | .error e => .error e
    | .ok italicBoldNodes =>
      match splitNodesDelimiter italicBoldNodes (chars "`") TextType.CODE with
      | .error e => .error e
      | .ok codeItalicBoldNodes =>
        .ok (splitNodesLink (splitNodesImage codeItalicBoldNodes))

/-- The `BlockType` enum of `block_markdown_to_html.py`. -/
inductive BlockType where
  | PARAGRAPH
  | HEADING
  | CODE
  | QUOTE
  | UNORDERED_LIST
  | ORDERED_LIST
deriving DecidableEq, Repr

/-- The HTML node tree of `html_parent_leaf_node.py`: `ParentNode` carries an
optional tag, optional children and optional props; `LeafNode` carries an
optional tag, an optional value and optional props.  `Option` models
Python's `None`, distinguishing a never-set field from a set-but-empty one. -/
inductive HTMLNode where
  | parentNode (tag : Option (List Char)) (children : Option (List HTMLNode))
      (props : Option (List (List Char × List Char))) : HTMLNode
  | leafNode (tag : Option (List Char)) (value : Option (List Char))
      (props : Option (List (List Char × List Char))) : HTMLNode

/-- `HTMLNode.props_to_html`: each attribute renders as a leading space plus
`name="value"`, in order; `None` props contribute nothing. -/
def propsToHtml : Option (List (List Char × List Char)) → List Char
  | none => []
  | some props =>
    props.foldl (fun acc kv => acc ++ chars " " ++ kv.1 ++ chars "=\"" ++ kv.2 ++ chars "\"") []

mutual

/-- The `to_html` methods of `ParentNode` and `LeafNode`: a parent raises
`ValueError` when its tag or its children are `None`, otherwise renders the
opening tag, the children in order, and the closing tag; a leaf raises
`ValueError` when its value is `None`, renders the raw value when its tag
is `None`, and otherwise wraps the value in its tag. -/
def toHtml : HTMLNode → Except PyErr (List Char)
  | .leafNode tag value props =>
    match value with
    | none => .error (.valueError (chars "invalid HTML: no value"))
    | some v =>
      match tag with
      | none => .ok v
      | some t =>
        .ok (chars "<" ++ t ++ propsToHtml props ++ chars ">" ++ v ++ chars "</" ++ t ++ chars ">")
  | .parentNode tag children props =>
    match tag with
    | none => .error (.valueError (chars "invalid HTML: no tag"))
    | some t =>
      match children with
      | none => .error (.valueError (chars "invalid HTML: no children"))
      | some cs =>
        match childrenToHtml cs with
        | .error e => .error e
        | .ok inner =>
          .ok (chars "<" ++ t ++ propsToHtml props ++ chars ">" ++ inner ++ chars "</" ++ t ++ chars ">")

/-- The loop of `ParentNode.to_html` accumulating each child's HTML in
order; the first failing child aborts the render. -/
def childrenToHtml : List HTMLNode → Except PyErr (List Char)
  | [] => .ok []
  | c :: rest =>
    match toHtml c with
    | .error e => .error e
    | .ok h =>
      match childrenToHtml rest with
      | .error e => .error e
      | .ok t => .ok (h ++ t)

end

/-- `text_node_to_html_node` from `html_parent_leaf_node.py`.  The Python
function builds `props = {}` and then adds `href` for links and
`src`/`alt` for images (an image's value becomes the empty string); the
trailing `raise` for an unknown `TextType` is unreachable because the
match on the modelled enum is exhaustive. -/
def textNodeToHtmlNode (textNode : TextNode) : HTMLNode :=
  match textNode.textType with
  | .TEXT => .leafNode none (some textNode.text) (some [])
  | .BOLD => .leafNode (some (chars "b")) (some textNode.text) (some [])
  | .ITALIC => .leafNode (some (chars "i")) (some textNode.text) (some [])
  | .CODE => .leafNode (some (chars "code")) (some textNode.text) (some [])
  | .LINK =>
    .leafNode (some (chars "a")) (some textNode.text)
      (some [(chars "href", textNode.url.getD (chars "None"))])
  | .IMAGE =>
    .leafNode (some (chars "img")) (some [])
      (some [(chars "src", textNode.url.getD (chars "None")), (chars "alt", textNode.text)])

/-- `markdown_to_blocks` from `block_markdown_to_html.py`: the processing
loop over the fragments of the double-newline split, stripping each and
keeping the non-empty results in order. -/
def processBlocks : List (List Char) → List (List Char)
  | [] => []
  | block :: rest =>
    if pyStrip block = [] then processBlocks rest
    else pyStrip block :: processBlocks rest

/-- `markdown_to_blocks` from `block_markdown_to_html.py`. -/
def markdownToBlocks (markdownDocument : List Char) : List (List Char) :=
  processBlocks (splitOnSub (chars "\n\n") markdownDocument)

/-- The ordered-list loop of `block_to_block_type`: every line must start
with `f"{count}. "` for the running counter. -/
def orderedListCheck : Nat → List (List Char) → Bool
  | _, [] => true
  | count, line :: rest =>
    (natToChars count ++ chars ". ").isPrefixOf line && orderedListCheck (count + 1) rest

/-- `block_to_block_type` from `block_markdown_to_html.py`: the priority
chain heading / code / quote / unordered list / ordered list / paragraph. -/
def blockToBlockType (markdownBlock : List Char) : BlockType :=
  if (chars "# ").isPrefixOf markdownBlock ∨ (chars "## ").isPrefixOf markdownBlock ∨
      (chars "### ").isPrefixOf markdownBlock ∨ (chars "#### ").isPrefixOf markdownBlock ∨
      (chars "##### ").isPrefixOf markdownBlock ∨ (chars "###### ").isPrefixOf markdownBlock then
    .HEADING
  else if (chars "```").isPrefixOf markdownBlock ∧ (chars "```").isSuffixOf markdownBlock then
    .CODE
  else if (chars ">").isPrefixOf markdownBlock then
    if (splitOnSub (chars "\n") markdownBlock).all (fun line => (chars ">").isPrefixOf line) then
      .QUOTE
    else .PARAGRAPH
  else if (chars "- ").isPrefixOf markdownBlock then
    if (splitOnSub (chars "\n") markdownBlock).all (fun line => (chars "- ").isPrefixOf line) then
      .UNORDERED_LIST
    else .PARAGRAPH
  else if (chars "1. ").isPrefixOf markdownBlock then
    if orderedListCheck 1 (splitOnSub (chars "\n") markdownBlock) then .ORDERED_LIST
    else .PARAGRAPH
  else .PARAGRAPH

/-- `text_to_children` from `block_markdown_to_html.py`: tokenize the text
and convert each `TextNode` to an HTML leaf. -/
def textToChildren (text : List Char) : Except PyErr (List HTMLNode) :=
  match textToTextnodes text with
  | .error e => .error e
  | .ok textNodes => .ok (textNodes.map textNodeToHtmlNode)

/-- `paragraph_to_html_node`: join the block's lines with single spaces,
tokenize, and wrap in a `p` parent. -/
def paragraphToHtmlNode (markdownBlock : List Char) : Except PyErr HTMLNode :=
  let paragraph := List.intercalate (chars " ") (splitOnSub (chars "\n") markdownBlock)
  match textToChildren paragraph with
  | .error e => .error e
  | .ok childrenNodes => .ok (.parentNode (some (chars "p")) (some childrenNodes) none)

/-- `heading_to_html_node`: split off the marker at the first space, count
its `#` characters, reject a heading with no content, and wrap the
tokenized remainder in an `h{count}` parent.  Accessing the missing
remainder of a one-part split models Python's `IndexError`. -/
def headingToHtmlNode (markdownBlock : List Char) : Except PyErr HTMLNode :=
  let symbolsAndHeading := pySplitOnce (chars " ") markdownBlock
  let count := countSubstr (chars "#") (symbolsAndHeading.headD [])
  if count + 1 ≥ markdownBlock.length then
    .error (.valueError (chars "invalid heading: h" ++ natToChars count))
  else
    match symbolsAndHeading with
    | [_, headingText] =>
      match textToChildren headingText with
      | .error e => .error e
      | .ok childrenNodes =>
        .ok (.parentNode (some ('h' :: natToChars count)) (some childrenNodes) none)
    | _ => .error (.indexError (chars "list index out of range"))

/-- `code_to_html_node`: validate the fences, take the raw text between
`[4:-3]` (Python slice), and wrap it — without any inline tokenization —
as a tagless leaf inside `Parent(code)` inside `Parent(pre)`. -/
def codeToHtmlNode (markdownBlock : List Char) : Except PyErr HTMLNode :=
  if ¬ ((chars "```").isPrefixOf markdownBlock) ∨ ¬ ((chars "```").isSuffixOf markdownBlock) then
    .error (.valueError (chars "invalid code block"))
  else
    let text := (markdownBlock.take (markdownBlock.length - 3)).drop 4
    .ok (.parentNode (some (chars "pre"))
      (some [.parentNode (some (chars "code"))
        (some [textNodeToHtmlNode ⟨text, TextType.TEXT, none⟩]) none]) none)

/-- The line loop of `unordered_list_to_html_node`: each line must start
with `-`; its text after the first two characters is tokenized and wrapped
in an `li` parent. -/
def unorderedListLines : List (List Char) → Except PyErr (List HTMLNode)
  | [] => .ok []
  | listLine :: rest =>
    if ¬ ((chars "-").isPrefixOf listLine) then
      .error (.valueError (chars "invalid unordered list line"))
    else
      match textToChildren (listLine.drop 2) with
      | .error e => .error e
      | .ok nodeList =>
        match unorderedListLines rest with
        | .error e => .error e
        | .ok tail => .ok (.parentNode (some (chars "li")) (some nodeList) none :: tail)

/-- `unordered_list_to_html_node`. -/
def unorderedListToHtmlNode (markdownBlock : List Char) : Except PyErr HTMLNode :=
  match unorderedListLines (splitOnSub (chars "\n") markdownBlock) with
  | .error e => .error e
  | .ok childNodes => .ok (.parentNode (some (chars "ul")) (some childNodes) none)

/-- The line loop of `ordered_list_to_html_node`: each line must start with
`f"{count}."`; its text after the first three characters is tokenized and
wrapped in an `li` parent. -/
def orderedListLines : Nat → List (List Char) → Except PyErr (List HTMLNode)
  | _, [] => .ok []
  | count, listLine :: rest =>
    if ¬ ((natToChars count ++ chars ".").isPrefixOf listLine) then
      .error (.valueError (chars "invalid ordered list line: " ++ natToChars count ++ chars "."))
    else
      match textToChildren (listLine.drop 3) with
      | .error e => .error e
      | .ok nodeList =>
        match orderedListLines (count + 1) rest with
        | .error e => .error e
        | .ok tail => .ok (.parentNode (some (chars "li")) (some nodeList) none :: tail)

/-- `ordered_list_to_html_node`. -/
def orderedListToHtmlNode (markdownBlock : List Char) : Except PyErr HTMLNode :=
  match orderedListLines 1 (splitOnSub (chars "\n") markdownBlock) with
  | .error e => .error e
  | .ok childNodes => .ok (.parentNode (some (chars "ol")) (some childNodes) none)

/-- The line loop of `quote_to_html_node`: each line must start with `>`;
the leading `>` characters are stripped (`lstrip(">")`) and the remainder
trimmed. -/
def quoteProcessLines : List (List Char) → Except PyErr (List (List Char))
  | [] => .ok []
  | quoteLine :: rest =>
    if ¬ ((chars ">").isPrefixOf quoteLine) then
      .error (.valueError (chars "invalid quote block"))
    else
      match quoteProcessLines rest with
      | .error e => .error e
      | .ok tail => .ok (pyStrip (quoteLine.dropWhile (fun c => c == '>')) :: tail)

/-- `quote_to_html_node`: strip the markers, join the lines with single
spaces, tokenize, and wrap in a `blockquote` parent. -/
def quoteToHtmlNode (markdownBlock : List Char) : Except PyErr HTMLNode :=
  match quoteProcessLines (splitOnSub (chars "\n") markdownBlock) with
  | .error e => .error e
  | .ok processedLines =>
    match textToChildren (List.intercalate (chars " ") processedLines) with
    | .error e => .error e
    | .ok childNodes => .ok (.parentNode (some (chars "blockquote")) (some childNodes) none)

/-- `block_to_html_node`: classify the block and dispatch to the per-kind
converter.  The trailing `raise ValueError("invalid block type")` of the
Python chain is unreachable because the match is exhaustive. -/
def blockToHtmlNode (markdownBlock : List Char) : Except PyErr HTMLNode :=
  match blockToBlockType markdownBlock with
  | .PARAGRAPH => paragraphToHtmlNode markdownBlock
  | .HEADING => headingToHtmlNode markdownBlock
  | .CODE => codeToHtmlNode markdownBlock
  | .UNORDERED_LIST => unorderedListToHtmlNode markdownBlock
  | .ORDERED_LIST => orderedListToHtmlNode markdownBlock
  | .QUOTE => quoteToHtmlNode markdownBlock

/-- The block loop of `markdown_to_html_node`, collecting the per-block
HTML nodes in order; the first failing block aborts the conversion. -/
def blocksToHtmlNodes : List (List Char) → Except PyErr (List HTMLNode)
  | [] => .ok []
  | block :: rest =>
    match blockToHtmlNode block with
    | .error e => .error e
    | .ok node =>
      match blocksToHtmlNodes rest with
      | .error e => .error e
      | .ok tail => .ok (node :: tail)

/-- `markdown_to_html_node` from `block_markdown_to_html.py`: convert every
block and wrap the children in a `div` parent. -/
def markdownToHtmlNode (markdownDocument : List Char) : Except PyErr HTMLNode :=
  match blocksToHtmlNodes (markdownToBlocks markdownDocument) with
  | .error e => .error e
  | .ok children => .ok (.parentNode (some (chars "div")) (some children) none)

/-- The line loop of `extract_title`: return the trimmed remainder after
`"# "` of the first line that starts with `"# "`, raising when no line
does. -/
def extractTitleLines : List (List Char) → Except PyErr (List Char)
  | [] => .error (.valueError (chars "No title found in markdown."))
  | line :: rest =>
    if (chars "# ").isPrefixOf line then .ok (pyStrip (line.drop 2))
    else extractTitleLines rest

/-- `extract_title` from `generate_content.py`. -/
def extractTitle (markdown : List Char) : Except PyErr (List Char) :=
  extractTitleLines (splitOnSub (chars "\n") markdown)

/-- The composite used by `generate_page` in `generate_content.py`:
`markdown_to_html_node(doc).to_html()`. -/
def renderMarkdown (markdownDocument : List Char) : Except PyErr (List Char) :=
  match markdownToHtmlNode markdownDocument with
  | .error e => .error e
  | .ok node => toHtml node

/-- Compile a single block and render it: `block_to_html_node(b).to_html()`. -/
def renderBlock (markdownBlock : List Char) : Except PyErr (List Char) :=
  match blockToHtmlNode markdownBlock with
  | .error e => .error e
  | .ok node => toHtml node

/-! ## Support lemmas -/

theorem isPrefixOf_cons_ne {a c : Char} (as s : List Char) (h : a ≠ c) :
    (a :: as).isPrefixOf (c :: s) = false := by
  rw [List.isPrefixOf_cons₂]
  simp [h]

theorem isPrefixOf_append_of_le (p v u : List Char) (h : p.length ≤ v.length) :
    p.isPrefixOf (v ++ u) = p.isPrefixOf v := by
  induction p generalizing v with
  | nil => simp [List.isPrefixOf]
  | cons a as ih =>
    cases v with
    | nil => simp at h
    | cons c vs =>
      simp only [List.cons_append, List.isPrefixOf_cons₂]
      rw [ih vs (by simpa using h)]

theorem eq_append_drop_of_isPrefixOf {p s : List Char} (h : p.isPrefixOf s = true) :
    s = p ++ s.drop p.length := by
  obtain ⟨u, hu⟩ := List.isPrefixOf_iff_prefix.mp h
  rw [← hu, List.drop_left]

theorem countSubstrFuel_single (b : Char) :
    ∀ (fuel : Nat) (s : List Char), s.length ≤ fuel →
      countSubstrFuel b [] fuel s = s.count b := by
  intro fuel
  induction fuel with
  | zero =>
    intro s hs
    have : s = [] := List.eq_nil_of_length_eq_zero (Nat.le_zero.mp hs)
    subst this
    simp [countSubstrFuel]
  | succ fuel ih =>
    intro s hs
    cases s with
    | nil => simp [countSubstrFuel]
    | cons c rest =>
      have hrest : rest.length ≤ fuel := by simpa using hs
      rw [countSubstrFuel]
      by_cases hbc : b = c
      · subst hbc
        rw [if_pos (by simp [List.isPrefixOf_cons₂])]
        simp [ih rest hrest, List.count_cons]
      · rw [if_neg (by simp [List.isPrefixOf_cons₂, hbc])]
        rw [ih rest hrest]
        simp [List.count_cons, Ne.symm hbc]

theorem countSubstr_single (b : Char) (s : List Char) :
    countSubstr [b] s = s.count b :=
  countSubstrFuel_single b s.length s (Nat.le_refl _)

theorem splitOnFuel_count_sum {b sepHead : Char} {sepTail : List Char}
    (hb : b ∉ sepHead :: sepTail) :
    ∀ (fuel : Nat) (s acc : List Char), s.length ≤ fuel →
      ((splitOnFuel sepHead sepTail fuel s acc).map (fun part => part.count b)).sum
        = s.count b + acc.count b := by
  intro fuel
  induction fuel with
  | zero =>
    intro s acc hs
    have : s = [] := List.eq_nil_of_length_eq_zero (Nat.le_zero.mp hs)
    subst this
    simp [splitOnFuel]
  | succ fuel ih =>
    intro s acc hs
    cases s with
    | nil => simp [splitOnFuel]
    | cons c rest =>
      have hrest : rest.length ≤ fuel := by simpa using hs
      rw [splitOnFuel]
      by_cases hpre : (sepHead :: sepTail).isPrefixOf (c :: rest) = true
      · rw [if_pos hpre]
        have hdec := eq_append_drop_of_isPrefixOf hpre
        have hdrop : (c :: rest).drop (sepHead :: sepTail).length = rest.drop sepTail.length := by
          simp [List.drop_succ_cons]
        rw [hdrop] at hdec
        have hdlen : (rest.drop sepTail.length).length ≤ fuel :=
          Nat.le_trans (by simp) hrest
        have hcount : (c :: rest).count b = (rest.drop sepTail.length).count b := by
          conv_lhs => rw [hdec]
          rw [List.count_append, List.count_eq_zero_of_not_mem hb]
          simp
        simp only [List.map_cons, List.sum_cons, ih (rest.drop sepTail.length) [] hdlen]
        rw [hcount]
        simp [List.count_reverse]
        omega
      · rw [if_neg hpre]
        rw [ih rest (c :: acc) hrest]
        simp [List.count_cons]
        omega

theorem splitOnSub_count_sum {b sepHead : Char} {sepTail : List Char}
    (hb : b ∉ sepHead :: sepTail) (s : List Char) :
    ((splitOnSub (sepHead :: sepTail) s).map (fun part => part.count b)).sum = s.count b := by
  rw [splitOnSub]
  rw [splitOnFuel_count_sum hb s.length s [] (Nat.le_refl _)]
  simp

theorem fragmentsToNodes_count_sum (b : Char) (tt : TextType) :
    ∀ (frags : List (List Char)) (i : Nat),
      ((fragmentsToNodes tt i frags).map (fun n => n.text.count b)).sum
        = (frags.map (fun part => part.count b)).sum := by
  intro frags
  induction frags with
  | nil => intro i; simp [fragmentsToNodes]
  | cons t rest ih =>
    intro i
    rw [fragmentsToNodes]
    by_cases ht : t = []
    · rw [if_pos ht, ih (i + 1)]
      subst ht
      simp
    · rw [if_neg ht]
      simp [ih (i + 1)]

theorem splitNodesDelimiter_count_sum {b sepHead : Char} {sepTail : List Char}
    (tt : TextType) (hb : b ∉ sepHead :: sepTail) :
    ∀ (nodes out : List TextNode),
      splitNodesDelimiter nodes (sepHead :: sepTail) tt = .ok out →
      (out.map (fun n => n.text.count b)).sum = (nodes.map (fun n => n.text.count b)).sum := by
  intro nodes
  induction nodes with
  | nil =>
    intro out h
    simp only [splitNodesDelimiter] at h
    cases h
    simp
  | cons node rest ih =>
    intro out h
    simp only [splitNodesDelimiter] at h
    by_cases h1 : countSubstr (sepHead :: sepTail) node.text % 2 ≠ 0
    · rw [if_pos h1] at h
      cases h
    · rw [if_neg h1] at h
      by_cases h2 : node.textType ≠ TextType.TEXT ∨ countSubstr (sepHead :: sepTail) node.text = 0
      · rw [if_pos h2] at h
        cases hrec : splitNodesDelimiter rest (sepHead :: sepTail) tt with
        | error e => rw [hrec] at h; cases h
        | ok tail =>
          rw [hrec] at h
          cases h
          simp [ih tail hrec]
      · rw [if_neg h2] at h
        cases hrec : splitNodesDelimiter rest (sepHead :: sepTail) tt with
        | error e => rw [hrec] at h; cases h
        | ok tail =>
          rw [hrec] at h
          cases h
          simp only [List.map_append, List.sum_append, List.map_cons, List.sum_cons]
          rw [ih tail hrec, fragmentsToNodes_count_sum, splitOnSub_count_sum hb]

theorem splitNodesDelimiter_ok_even (b : Char) (tt : TextType) :
    ∀ (nodes out : List TextNode), splitNodesDelimiter nodes [b] tt = .ok out →
      (nodes.map (fun n => n.text.count b)).sum % 2 = 0 := by
  intro nodes
  induction nodes with
  | nil => intro out h; simp
  | cons node rest ih =>
    intro out h
    simp only [splitNodesDelimiter] at h
    by_cases h1 : countSubstr [b] node.text % 2 ≠ 0
    · rw [if_pos h1] at h
      cases h
    · rw [if_neg h1] at h
      rw [countSubstr_single] at h1
      have hhead : node.text.count b % 2 = 0 := by omega
      have htail : ∃ tail, splitNodesDelimiter rest [b] tt = .ok tail := by
        by_cases h2 : node.textType ≠ TextType.TEXT ∨ countSubstr [b] node.text = 0
        · rw [if_pos h2] at h
          cases hrec : splitNodesDelimiter rest [b] tt with
          | error e => rw [hrec] at h; cases h
          | ok tail => exact ⟨tail, rfl⟩
        · rw [if_neg h2] at h
          cases hrec : splitNodesDelimiter rest [b] tt with
          | error e => rw [hrec] at h; cases h
          | ok tail => exact ⟨tail, rfl⟩
      obtain ⟨tail, htail⟩ := htail
      have := ih tail htail
      simp only [List.map_cons, List.sum_cons]
      omega

theorem childrenToHtml_ok (cs : List HTMLNode) (h : ∀ n ∈ cs, ∃ s, toHtml n = .ok s) :
    ∃ s, childrenToHtml cs = .ok s := by
  induction cs with
  | nil => exact ⟨[], rfl⟩
  | cons c rest ih =>
    obtain ⟨s1, hs1⟩ := h c (List.mem_cons_self c rest)
    obtain ⟨s2, hs2⟩ := ih (fun n hn => h n (List.mem_cons_of_mem c hn))
    exact ⟨s1 ++ s2, by rw [childrenToHtml, hs1, hs2]⟩

theorem orderedListCheck_iff :
    ∀ (ls : List (List Char)) (c : Nat),
      orderedListCheck c ls = true ↔
        ∀ i (h : i < ls.length),
          (natToChars (c + i) ++ chars ". ").isPrefixOf (ls.get ⟨i, h⟩) = true := by
  intro ls
  induction ls with
  | nil => intro c; simp [orderedListCheck]
  | cons line rest ih =>
    intro c
    rw [orderedListCheck, Bool.and_eq_true, ih (c + 1)]
    constructor
    · rintro ⟨h0, hrest⟩ i hi
      cases i with
      | zero => simpa using h0
      | succ j =>
        have hj : j < rest.length := by simpa using hi
        have := hrest j hj
        simpa [Nat.add_comm, Nat.add_assoc, Nat.add_left_comm] using this
    · intro hall
      constructor
      · simpa using hall 0 (by simp)
      · intro j hj
        have := hall (j + 1) (by simpa using hj)
        simpa [Nat.add_comm, Nat.add_assoc, Nat.add_left_comm] using this

theorem extractTitleLines_eq :
    ∀ ls : List (List Char),
      extractTitleLines ls =
        match ls.find? (fun l => (chars "# ").isPrefixOf l) with
        | some line => .ok (pyStrip (line.drop 2))
        | none => .error (.valueError (chars "No title found in markdown.")) := by
  intro ls
  induction ls with
  | nil => rfl
  | cons line rest ih =>
    by_cases hp : (chars "# ").isPrefixOf line = true
    · rw [extractTitleLines, if_pos hp, List.find?_cons_of_pos _ hp]
    · rw [extractTitleLines, if_neg hp, List.find?_cons_of_neg _ (by simpa using hp), ih]

theorem processBlocks_eq (l : List (List Char)) :
    processBlocks l = (l.map pyStrip).filter (fun b => !b.isEmpty) := by
  induction l with
  | nil => rfl
  | cons block rest ih =>
    by_cases hb : pyStrip block = []
    · rw [processBlocks, if_pos hb]
      simp [hb, ih, List.filter_cons]
    · rw [processBlocks, if_neg hb]
      simp [hb, ih, List.filter_cons, List.isEmpty_iff]

theorem splitOnFuel_mem (sepHead : Char) (sepTail : List Char) :
    ∀ (fuel : Nat) (s acc part : List Char), part ∈ splitOnFuel sepHead sepTail fuel s acc →
      ∀ c ∈ part, c ∈ s ∨ c ∈ acc := by
  intro fuel
  induction fuel with
  | zero =>
    intro s acc part hpart c hc
    cases s with
    | nil =>
      simp [splitOnFuel] at hpart
      subst hpart
      simp at hc
      exact Or.inr hc
    | cons c0 rest =>
      simp [splitOnFuel] at hpart
      subst hpart
      simp at hc
      rcases hc with hc | hc
      · exact Or.inr hc
      · exact Or.inl (List.mem_cons.mpr hc)
  | succ fuel ih =>
    intro s acc part hpart c hc
    cases s with
    | nil =>
      simp [splitOnFuel] at hpart
      subst hpart
      simp at hc
      exact Or.inr hc
    | cons c0 rest =>
      rw [splitOnFuel] at hpart
      by_cases hpre : (sepHead :: sepTail).isPrefixOf (c0 :: rest) = true
      · rw [if_pos hpre] at hpart
        rcases List.mem_cons.mp hpart with hpart | hpart
        · subst hpart
          simp at hc
          exact Or.inr hc
        · rcases ih (rest.drop sepTail.length) [] part hpart c hc with h | h
          · exact Or.inl (List.mem_cons_of_mem c0 (List.mem_of_mem_drop h))
          · simp at h
      · rw [if_neg hpre] at hpart
        rcases ih rest (c0 :: acc) part hpart c hc with h | h
        · exact Or.inl (List.mem_cons_of_mem c0 h)
        · rcases List.mem_cons.mp h with h | h
          · exact Or.inl (h ▸ List.mem_cons_self c0 rest)
          · exact Or.inr h

theorem pyStrip_eq_nil {s : List Char} (h : ∀ c ∈ s, isPySpace c = true) :
    pyStrip s = [] := by
  rw [pyStrip, List.dropWhile_eq_nil_iff.mpr h]
  simp

theorem processBlocks_eq_nil {l : List (List Char)} (h : ∀ p ∈ l, pyStrip p = []) :
    processBlocks l = [] := by
  induction l with
  | nil => rfl
  | cons block rest ih =>
    rw [processBlocks, if_pos (h block (List.mem_cons_self block rest))]
    exact ih (fun p hp => h p (List.mem_cons_of_mem block hp))

/-! ## Claim theorems -/

/-- C2: parsing the document `"# Hi\n\nSome **bold** text."` to a document
tree and rendering it to HTML yields exactly
`"<div><h1>Hi</h1><p>Some <b>bold</b> text.</p></div>"`. -/
theorem C2_end_to_end_render :
    renderMarkdown (chars "# Hi\n\nSome **bold** text.") =
      .ok (chars "<div><h1>Hi</h1><p>Some <b>bold</b> text.</p></div>") := by
  decide

/-- C10: the one-line block of exactly three backticks satisfies both the
starts-with and the ends-with fence test with the same three characters, is
classified `CODE`, and compiles and renders to `<pre><code></code></pre>`
without error. -/
theorem C10_three_backtick_block :
    (chars "```").isPrefixOf (chars "```") = true ∧
    (chars "```").isSuffixOf (chars "```") = true ∧
    blockToBlockType (chars "```") = .CODE ∧
    renderBlock (chars "```") = .ok (chars "<pre><code></code></pre>") := by
  decide

/-- C5: compiling a code block takes the Python slice `[4:-3]` of the raw
block (the leading fence plus newline and the trailing fence), applies no
inline tokenization, and wraps the raw body as a tagless leaf inside
`Parent(code)` inside `Parent(pre)`; the block `"```\ncode\n```"` renders
as `"<pre><code>code\n</code></pre>"` and a literal `"_x_"` body is left
unchanged. -/
theorem C5_code_block_compilation :
    (∀ markdownBlock : List Char,
        (chars "```").isPrefixOf markdownBlock = true →
        (chars "```").isSuffixOf markdownBlock = true →
        codeToHtmlNode markdownBlock =
          .ok (.parentNode (some (chars "pre"))
            (some [.parentNode (some (chars "code"))
              (some [.leafNode none
                (some ((markdownBlock.take (markdownBlock.length - 3)).drop 4))
                (some [])]) none]) none)) ∧
    renderBlock (chars "```\ncode\n```") = .ok (chars "<pre><code>code\n</code></pre>") ∧
    renderBlock (chars "```\n_x_\n```") = .ok (chars "<pre><code>_x_\n</code></pre>") := by
  refine ⟨?_, by decide, by decide⟩
  intro markdownBlock hpre hsuf
  rw [codeToHtmlNode, if_neg]
  · rfl
  · simp [hpre, hsuf]

/-- C5 witness: the generic code-block compilation theorem applied to the
concrete block `"```\nx\n```"`. -/
theorem C5_code_block_compilation_witness :
    codeToHtmlNode (chars "```\nx\n```") =
      .ok (.parentNode (some (chars "pre"))
        (some [.parentNode (some (chars "code"))
          (some [.leafNode none
            (some (((chars "```\nx\n```").take ((chars "```\nx\n```").length - 3)).drop 4))
            (some [])]) none]) none) :=
  C5_code_block_compilation.1 (chars "```\nx\n```") (by decide) (by decide)

/-- C7 counterexample: a `ParentNode` whose tag and children are both set
still fails to render when one of its children fails (here, a child leaf
with no value), so "fails exactly when its tag is absent or its children
field was never set" is false for `Parent` rendering as stated. -/
theorem C7_render_validation_counterexample :
    (∃ e, toHtml (.parentNode (some (chars "p")) (some [.leafNode none none none]) none)
        = .error e) ∧
    ¬ ((some (chars "p") : Option (List Char)) = none ∨
       (some [HTMLNode.leafNode none none none] : Option (List HTMLNode)) = none) := by
  constructor
  · exact ⟨.valueError (chars "invalid HTML: no value"), rfl⟩
  · simp

/-- C7 (amended): a `Parent` fails on its own fields exactly when its tag
or its children are absent — with a tag, never-set children, or a failing
child being the only failure sources — and renders set-but-empty children
as an empty tag pair; a `Leaf` fails exactly when its value is absent and
renders the bare value when it has no tag. -/
theorem C7_render_validation :
    (∀ (cs : Option (List HTMLNode)) (p : Option (List (List Char × List Char))),
        toHtml (.parentNode none cs p) = .error (.valueError (chars "invalid HTML: no tag"))) ∧
    (∀ (t : List Char) (p : Option (List (List Char × List Char))),
        toHtml (.parentNode (some t) none p)
          = .error (.valueError (chars "invalid HTML: no children"))) ∧
    (∀ (t : List Char) (p : Option (List (List Char × List Char))) (cs : List HTMLNode),
        (∀ n ∈ cs, ∃ s, toHtml n = .ok s) →
        ∃ s, toHtml (.parentNode (some t) (some cs) p) = .ok s) ∧
    (∀ (t : List Char) (p : Option (List (List Char × List Char))),
        toHtml (.parentNode (some t) (some []) p)
          = .ok (chars "<" ++ t ++ propsToHtml p ++ chars ">" ++ chars "</" ++ t ++ chars ">")) ∧
    (∀ (tag : Option (List Char)) (p : Option (List (List Char × List Char))),
        toHtml (.leafNode tag none p) = .error (.valueError (chars "invalid HTML: no value"))) ∧
    (∀ (tag : Option (List Char)) (v : List Char) (p : Option (List (List Char × List Char))),
        ∃ s, toHtml (.leafNode tag (some v) p) = .ok s) ∧
    (∀ (v : List Char) (p : Option (List (List Char × List Char))),
        toHtml (.leafNode none (some v) p) = .ok v) := by
  refine ⟨fun cs p => rfl, fun t p => rfl, ?_, ?_, ?_, ?_, fun v p => rfl⟩
  · intro t p cs h
    obtain ⟨s, hs⟩ := childrenToHtml_ok cs h
    exact ⟨chars "<" ++ t ++ propsToHtml p ++ chars ">" ++ s ++ chars "</" ++ t ++ chars ">",
      by rw [toHtml, hs]⟩
  · intro t p
    simp [toHtml, childrenToHtml]
  · intro tag p
    cases tag <;> rfl
  · intro tag v p
    cases tag with
    | none => exact ⟨v, rfl⟩
    | some t =>
      exact ⟨chars "<" ++ t ++ propsToHtml p ++ chars ">" ++ v ++ chars "</" ++ t ++ chars ">", rfl⟩

/-- C7 witness: the amended renderer contract applied to a concrete parent
with one successfully rendering child. -/
theorem C7_render_validation_witness :
    ∃ s, toHtml (.parentNode (some (chars "p"))
        (some [.leafNode none (some (chars "x")) none]) none) = .ok s :=
  C7_render_validation.2.2.1 (chars "p") none [.leafNode none (some (chars "x")) none]
    (by intro n hn
        rw [List.mem_singleton] at hn
        subst hn
        exact ⟨chars "x", rfl⟩)

/-- C1 counterexample: the italic pass raises on a span already typed Bold
whose text contains a single `_`, and tokenizing `"**a_b**"` therefore
fails, contradicting "a later delimiter pass passes the span through
untouched and never raises on it". -/
theorem C1_typed_span_passthrough_counterexample :
    splitNodesDelimiter [⟨chars "a_b", TextType.BOLD, none⟩] (chars "_") TextType.ITALIC
        = .error (.valueError (chars "invalid Markdown syntax.")) ∧
    textToTextnodes (chars "**a_b**")
        = .error (.valueError (chars "invalid Markdown syntax.")) := by
  decide

/-- C1 (amended): a later delimiter pass never splits a span already typed
non-plain and passes it through unchanged when the span's delimiter count
is even, but the balance check runs on every span regardless of its type:
a non-plain span containing an odd number of the pass's delimiter makes
the pass (and hence tokenization) fail. -/
theorem C1_typed_span_passthrough (node : TextNode) (delimiter : List Char) (tt : TextType)
    (h : node.textType ≠ TextType.TEXT) :
    (countSubstr delimiter node.text % 2 = 0 →
        splitNodesDelimiter [node] delimiter tt = .ok [node]) ∧
    (countSubstr delimiter node.text % 2 = 1 →
        splitNodesDelimiter [node] delimiter tt
          = .error (.valueError (chars "invalid Markdown syntax."))) := by
  constructor
  · intro hc
    simp only [splitNodesDelimiter]
    rw [if_neg (by omega), if_pos (Or.inl h)]
  · intro hc
    simp only [splitNodesDelimiter]
    rw [if_pos (by omega)]

/-- C1 witness: the amended pass-through behaviour applied to a Bold span
with an even (zero) count of the bold delimiter. -/
theorem C1_typed_span_passthrough_witness :
    splitNodesDelimiter [⟨chars "a_b", TextType.BOLD, none⟩] (chars "**") TextType.BOLD
        = .ok [⟨chars "a_b", TextType.BOLD, none⟩] :=
  (C1_typed_span_passthrough ⟨chars "a_b", TextType.BOLD, none⟩ (chars "**") TextType.BOLD
    (by decide)).1 (by decide)

/-- C6: on a single plain-text span, a delimiter pass fails — with the
unbalanced-delimiter error and no partial output — exactly when the span
contains an odd number of occurrences of the pass's delimiter; and inline
tokenizing any text with an odd number of backtick characters fails. -/
theorem C6_delimiter_balance :
    (∀ (text delimiter : List Char) (tt : TextType),
        splitNodesDelimiter [⟨text, TextType.TEXT, none⟩] delimiter tt
            = .error (.valueError (chars "invalid Markdown syntax."))
          ↔ countSubstr delimiter text % 2 = 1) ∧
    (∀ text : List Char, countSubstr (chars "`") text % 2 = 1 →
        ∃ e, textToTextnodes text = .error e) := by
  constructor
  · intro text delimiter tt
    simp only [splitNodesDelimiter]
    by_cases hc : countSubstr delimiter text % 2 = 0
    · rw [if_neg (by omega)]
      split_ifs with h2
      · constructor
        · intro h
          simp at h
        · intro h
          omega
      · constructor
        · intro h
          simp at h
        · intro h
          omega
    · rw [if_pos (by omega)]
      simp
      omega
  · intro text hodd
    have hbq : chars "`" = [bquote] := by decide
    rw [hbq, countSubstr_single] at hodd
    cases hbold : splitNodesDelimiter [⟨text, TextType.TEXT, none⟩] (chars "**") TextType.BOLD with
    | error e => exact ⟨e, by simp only [textToTextnodes, hbold]⟩
    | ok boldNodes =>
      cases hital : splitNodesDelimiter boldNodes (chars "_") TextType.ITALIC with
      | error e => exact ⟨e, by simp only [textToTextnodes, hbold, hital]⟩
      | ok italicNodes =>
        cases hcode : splitNodesDelimiter italicNodes (chars "`") TextType.CODE with
        | error e => exact ⟨e, by simp only [textToTextnodes, hbold, hital, hcode]⟩
        | ok codeNodes =>
          exfalso
          rw [show chars "**" = '*' :: ['*'] from rfl] at hbold
          rw [show chars "_" = '_' :: [] from rfl] at hital
          rw [hbq] at hcode
          have h1 := @splitNodesDelimiter_count_sum bquote '*' ['*'] TextType.BOLD
            (by decide) _ _ hbold
          have h2 := @splitNodesDelimiter_count_sum bquote '_' [] TextType.ITALIC
            (by decide) _ _ hital
          have h3 := splitNodesDelimiter_ok_even bquote TextType.CODE _ _ hcode
          simp only [List.map_cons, List.map_nil, List.sum_cons, List.sum_nil] at h1
          omega

/-- C6 witness: tokenizing the concrete text with one backtick fails. -/
theorem C6_delimiter_balance_witness :
    ∃ e, textToTextnodes (chars "a`b") = .error e :=
  C6_delimiter_balance.2 (chars "a`b") (by decide)

/-- C4: a block is classified Heading exactly when it starts with one to
six `#` characters immediately followed by a space, and a block starting
with seven (or more) `#` characters is classified Paragraph. -/
theorem C4_heading_classification :
    (∀ markdownBlock : List Char,
        blockToBlockType markdownBlock = .HEADING ↔
          ∃ k, 1 ≤ k ∧ k ≤ 6 ∧
            (List.replicate k '#' ++ [' ']).isPrefixOf markdownBlock = true) ∧
    (∀ markdownBlock : List Char,
        (List.replicate 7 '#').isPrefixOf markdownBlock = true →
        blockToBlockType markdownBlock = .PARAGRAPH) := by
  constructor
  · intro b
    constructor
    · intro h
      unfold blockToBlockType at h
      split_ifs at h with h1 h2 h3 h4 h5 h6 h7 h8
      · rcases h1 with hk | hk | hk | hk | hk | hk
        · exact ⟨1, by omega, by omega,
            by rw [show List.replicate 1 '#' ++ [' '] = chars "# " from by decide]; exact hk⟩
        · exact ⟨2, by omega, by omega,
            by rw [show List.replicate 2 '#' ++ [' '] = chars "## " from by decide]; exact hk⟩
        · exact ⟨3, by omega, by omega,
            by rw [show List.replicate 3 '#' ++ [' '] = chars "### " from by decide]; exact hk⟩
        · exact ⟨4, by omega, by omega,
            by rw [show List.replicate 4 '#' ++ [' '] = chars "#### " from by decide]; exact hk⟩
        · exact ⟨5, by omega, by omega,
            by rw [show List.replicate 5 '#' ++ [' '] = chars "##### " from by decide]; exact hk⟩
        · exact ⟨6, by omega, by omega,
            by rw [show List.replicate 6 '#' ++ [' '] = chars "###### " from by decide]; exact hk⟩
    · rintro ⟨k, hk1, hk6, hp⟩
      interval_cases k
      · rw [show List.replicate 1 '#' ++ [' '] = chars "# " from by decide] at hp
        unfold blockToBlockType
        rw [if_pos (Or.inl hp)]
      · rw [show List.replicate 2 '#' ++ [' '] = chars "## " from by decide] at hp
        unfold blockToBlockType
        rw [if_pos (Or.inr (Or.inl hp))]
      · rw [show List.replicate 3 '#' ++ [' '] = chars "### " from by decide] at hp
        unfold blockToBlockType
        rw [if_pos (Or.inr (Or.inr (Or.inl hp)))]
      · rw [show List.replicate 4 '#' ++ [' '] = chars "#### " from by decide] at hp
        unfold blockToBlockType
        rw [if_pos (Or.inr (Or.inr (Or.inr (Or.inl hp))))]
      · rw [show List.replicate 5 '#' ++ [' '] = chars "##### " from by decide] at hp
        unfold blockToBlockType
        rw [if_pos (Or.inr (Or.inr (Or.inr (Or.inr (Or.inl hp)))))]
      · rw [show List.replicate 6 '#' ++ [' '] = chars "###### " from by decide] at hp
        unfold blockToBlockType
        rw [if_pos (Or.inr (Or.inr (Or.inr (Or.inr (Or.inr hp)))))]
  · intro b hp
    obtain ⟨u, hu⟩ : ∃ u, b = chars "#######" ++ u :=
      ⟨b.drop (chars "#######").length, by
        rw [show (chars "#######" : List Char) = List.replicate 7 '#' from by decide]
        exact eq_append_drop_of_isPrefixOf hp⟩
    subst hu
    have d1 : ¬ (chars "# " <+: chars "#######" ++ u) := by
      rw [← List.isPrefixOf_iff_prefix, isPrefixOf_append_of_le _ _ _ (by decide)]
      decide
    have d2 : ¬ (chars "## " <+: chars "#######" ++ u) := by
      rw [← List.isPrefixOf_iff_prefix, isPrefixOf_append_of_le _ _ _ (by decide)]
      decide
    have d3 : ¬ (chars "### " <+: chars "#######" ++ u) := by
      rw [← List.isPrefixOf_iff_prefix, isPrefixOf_append_of_le _ _ _ (by decide)]
      decide
    have d4 : ¬ (chars "#### " <+: chars "#######" ++ u) := by
      rw [← List.isPrefixOf_iff_prefix, isPrefixOf_append_of_le _ _ _ (by decide)]
      decide
    have d5 : ¬ (chars "##### " <+: chars "#######" ++ u) := by
      rw [← List.isPrefixOf_iff_prefix, isPrefixOf_append_of_le _ _ _ (by decide)]
      decide
    have d6 : ¬ (chars "###### " <+: chars "#######" ++ u) := by
      rw [← List.isPrefixOf_iff_prefix, isPrefixOf_append_of_le _ _ _ (by decide)]
      decide
    have d7 : ¬ (chars "```" <+: chars "#######" ++ u) := by
      rw [← List.isPrefixOf_iff_prefix, isPrefixOf_append_of_le _ _ _ (by decide)]
      decide
    have d8 : ¬ (chars ">" <+: chars "#######" ++ u) := by
      rw [← List.isPrefixOf_iff_prefix, isPrefixOf_append_of_le _ _ _ (by decide)]
      decide
    have d9 : ¬ (chars "- " <+: chars "#######" ++ u) := by
      rw [← List.isPrefixOf_iff_prefix, isPrefixOf_append_of_le _ _ _ (by decide)]
      decide
    have d10 : ¬ (chars "1. " <+: chars "#######" ++ u) := by
      rw [← List.isPrefixOf_iff_prefix, isPrefixOf_append_of_le _ _ _ (by decide)]
      decide
    simp [blockToBlockType, d1, d2, d3, d4, d5, d6, d7, d8, d9, d10]

/-- C4 witness: a concrete block with seven leading `#` characters is a
Paragraph. -/
theorem C4_heading_classification_witness :
    blockToBlockType (chars "####### x") = .PARAGRAPH :=
  C4_heading_classification.2 (chars "####### x") (by decide)

theorem not_prefix_head_ne {a c : Char} (as s : List Char) (h : a ≠ c) :
    ¬ ((a :: as) <+: (c :: s)) := by
  rw [← List.isPrefixOf_iff_prefix, isPrefixOf_cons_ne as s h]
  simp

theorem blockToBlockType_ol_start (u : List Char) :
    blockToBlockType (chars "1. " ++ u) =
      (if orderedListCheck 1 (splitOnSub (chars "\n") (chars "1. " ++ u)) = true then
        BlockType.ORDERED_LIST
      else BlockType.PARAGRAPH) := by
  have hcons : (chars "1. " ++ u : List Char) = '1' :: (['.', ' '] ++ u) := by
    rw [show (chars "1. " : List Char) = ['1', '.', ' '] from by decide]
    rfl
  have d1 : ¬ (chars "# " <+: chars "1. " ++ u) := by
    rw [hcons, show (chars "# " : List Char) = '#' :: [' '] from by decide]
    exact not_prefix_head_ne _ _ (by decide)
  have d2 : ¬ (chars "## " <+: chars "1. " ++ u) := by
    rw [hcons, show (chars "## " : List Char) = '#' :: ['#', ' '] from by decide]
    exact not_prefix_head_ne _ _ (by decide)
  have d3 : ¬ (chars "### " <+: chars "1. " ++ u) := by
    rw [hcons, show (chars "### " : List Char) = '#' :: ['#', '#', ' '] from by decide]
    exact not_prefix_head_ne _ _ (by decide)
  have d4 : ¬ (chars "#### " <+: chars "1. " ++ u) := by
    rw [hcons, show (chars "#### " : List Char) = '#' :: ['#', '#', '#', ' '] from by decide]
    exact not_prefix_head_ne _ _ (by decide)
  have d5 : ¬ (chars "##### " <+: chars "1. " ++ u) := by
    rw [hcons, show (chars "##### " : List Char) = '#' :: ['#', '#', '#', '#', ' '] from by decide]
    exact not_prefix_head_ne _ _ (by decide)
  have d6 : ¬ (chars "###### " <+: chars "1. " ++ u) := by
    rw [hcons,
      show (chars "###### " : List Char) = '#' :: ['#', '#', '#', '#', '#', ' '] from by decide]
    exact not_prefix_head_ne _ _ (by decide)
  have d7 : ¬ (chars "```" <+: chars "1. " ++ u) := by
    rw [hcons, show (chars "```" : List Char) = bquote :: [bquote, bquote] from by decide]
    exact not_prefix_head_ne _ _ (by decide)
  have d8 : ¬ (chars ">" <+: chars "1. " ++ u) := by
    rw [hcons, show (chars ">" : List Char) = '>' :: [] from by decide]
    exact not_prefix_head_ne _ _ (by decide)
  have d9 : ¬ (chars "- " <+: chars "1. " ++ u) := by
    rw [hcons, show (chars "- " : List Char) = '-' :: [' '] from by decide]
    exact not_prefix_head_ne _ _ (by decide)
  by_cases hc : orderedListCheck 1 (splitOnSub (chars "\n") (chars "1. " ++ u)) = true <;>
    simp [blockToBlockType, d1, d2, d3, d4, d5, d6, d7, d8, d9, List.prefix_append, hc]

/-- C3: a block is classified OrderedList exactly when it starts with
`"1. "` and its `i`-th line (0-based) starts with `f"{i+1}. "` for every
line; a block starting `"1. "` is always OrderedList or Paragraph; the
block `"1. a\n2. b\n3. c"` compiles and renders to
`"<ol><li>a</li><li>b</li><li>c</li></ol>"`; and the gapped block
`"1. a\n3. b"` classifies as Paragraph. -/
theorem C3_ordered_list_classification :
    (∀ markdownBlock : List Char,
        blockToBlockType markdownBlock = .ORDERED_LIST ↔
          ((chars "1. ").isPrefixOf markdownBlock = true ∧
            ∀ i (h : i < (splitOnSub (chars "\n") markdownBlock).length),
              (natToChars (i + 1) ++ chars ". ").isPrefixOf
                  ((splitOnSub (chars "\n") markdownBlock).get ⟨i, h⟩) = true)) ∧
    (∀ markdownBlock : List Char,
        (chars "1. ").isPrefixOf markdownBlock = true →
        blockToBlockType markdownBlock = .ORDERED_LIST ∨
          blockToBlockType markdownBlock = .PARAGRAPH) ∧
    renderBlock (chars "1. a\n2. b\n3. c")
        = .ok (chars "<ol><li>a</li><li>b</li><li>c</li></ol>") ∧
    blockToBlockType (chars "1. a\n3. b") = .PARAGRAPH := by
  refine ⟨?_, ?_, by decide, by decide⟩
  · intro b
    constructor
    · intro h
      unfold blockToBlockType at h
      split_ifs at h with h1 h2 h3 h4 h5 h6 h7 h8
      refine ⟨‹(chars "1. ").isPrefixOf b = true›, ?_⟩
      intro i hi
      have := (orderedListCheck_iff _ 1).mp
        ‹orderedListCheck 1 (splitOnSub (chars "\n") b) = true› i hi
      simpa [Nat.add_comm] using this
    · rintro ⟨hp, hall⟩
      have hol : orderedListCheck 1 (splitOnSub (chars "\n") b) = true :=
        (orderedListCheck_iff _ 1).mpr (by
          intro i hi
          simpa [Nat.add_comm] using hall i hi)
      obtain ⟨u, hu⟩ : ∃ u, b = chars "1. " ++ u :=
        ⟨b.drop (chars "1. ").length, eq_append_drop_of_isPrefixOf hp⟩
      subst hu
      rw [blockToBlockType_ol_start, if_pos hol]
  · intro b hp
    obtain ⟨u, hu⟩ : ∃ u, b = chars "1. " ++ u :=
      ⟨b.drop (chars "1. ").length, eq_append_drop_of_isPrefixOf hp⟩
    subst hu
    rw [blockToBlockType_ol_start]
    by_cases hc : orderedListCheck 1 (splitOnSub (chars "\n") (chars "1. " ++ u)) = true
    · left
      rw [if_pos hc]
    · right
      rw [if_neg hc]

/-- C3 witness: the classification equivalence applied to the concrete
block `"1. a"`. -/
theorem C3_ordered_list_classification_witness :
    blockToBlockType (chars "1. a") = .ORDERED_LIST :=
  (C3_ordered_list_classification.1 (chars "1. a")).mpr ⟨by decide, by decide⟩

/-- C8: the block segmenter is exactly split-on-double-newline, trim each
fragment, drop empties, in order (a total function that never errors); and
any document of whitespace only segments to the empty block sequence. -/
theorem C8_block_segmentation :
    (∀ markdownDocument : List Char,
        markdownToBlocks markdownDocument =
          ((splitOnSub (chars "\n\n") markdownDocument).map pyStrip).filter
            (fun b => !b.isEmpty)) ∧
    (∀ markdownDocument : List Char,
        (∀ c ∈ markdownDocument, isPySpace c = true) →
        markdownToBlocks markdownDocument = []) := by
  constructor
  · intro doc
    rw [markdownToBlocks, processBlocks_eq]
  · intro doc hsp
    rw [markdownToBlocks]
    apply processBlocks_eq_nil
    intro p hp
    apply pyStrip_eq_nil
    intro c hc
    rw [show (chars "\n\n" : List Char) = '\n' :: ['\n'] from by decide] at hp
    rw [splitOnSub] at hp
    rcases splitOnFuel_mem '\n' ['\n'] doc.length doc [] p hp c hc with hm | hm
    · exact hsp c hm
    · simp at hm

/-- C8 witness: a concrete document of blank lines and whitespace yields no
blocks. -/
theorem C8_block_segmentation_witness :
    markdownToBlocks (chars " \n\n  \n\n\n") = [] :=
  C8_block_segmentation.2 (chars " \n\n  \n\n\n") (by decide)

/-- C9: the title extractor fails with its no-title error exactly when no
line of the raw markdown starts with `"# "`, and when some line does it
returns the trimmed remainder after the `"# "` prefix of the first such
line. -/
theorem C9_title_extraction :
    (∀ markdown : List Char,
        extractTitle markdown
            = .error (.valueError (chars "No title found in markdown.")) ↔
          ∀ line ∈ splitOnSub (chars "\n") markdown,
            ¬ ((chars "# ").isPrefixOf line = true)) ∧
    (∀ (markdown line : List Char),
        (splitOnSub (chars "\n") markdown).find? (fun l => (chars "# ").isPrefixOf l)
            = some line →
        extractTitle markdown = .ok (pyStrip (line.drop 2))) := by
  constructor
  · intro md
    rw [extractTitle, extractTitleLines_eq]
    cases hf : (splitOnSub (chars "\n") md).find? (fun l => (chars "# ").isPrefixOf l) with
    | none =>
      constructor
      · intro _ line hline
        simpa using List.find?_eq_none.mp hf line hline
      · intro _
        rfl
    | some line =>
      constructor
      · intro h
        exact Except.noConfusion h
      · intro hall
        exact absurd (List.find?_some hf) (hall line (List.mem_of_find?_eq_some hf))
  · intro md line hf
    rw [extractTitle, extractTitleLines_eq, hf]

/-- C9 witness: the positive case applied to a concrete two-line document
whose second line is the first level-1 heading line. -/
theorem C9_title_extraction_witness :
    extractTitle (chars "x\n# T ") = .ok (pyStrip ((chars "# T ").drop 2)) :=
  C9_title_extraction.2 (chars "x\n# T ") (chars "# T ") (by decide)
